import Mathlib

/-!
Verification of the alert-to-order processing pipeline of the fyers-simple-app
repository: webhook ingestion (webhookService.js), order validation
(orderValidation.js), the paper trading engine (paperEngine.js) and the market
data fill simulator (marketData service).

Conventions of the shallow embedding:
* JavaScript numbers that hold prices are modelled as rationals; quantities as
  integers.  JSON payload fields that may be absent are `Option` values.
* JavaScript truthiness is modelled explicitly: an absent field, the empty
  string and the number zero are falsy; `a || b` on such values is the
  `jsOr...` helpers below.
* Database tables are lists of records; `findUnique` is `List.find?` on the
  unique key, `create` appends, `update` maps over the matching row, `delete`
  is `List.eraseP`.  A prisma `$transaction` either applies all of its writes
  or none of them (rollback); a fault oracle says which step of the
  transaction fails.
* External providers (Fyers quotes, node crypto) enter as parameters: the
  market-data results `ltp`/`bidAsk` and the SHA-256 function `hash` are
  arguments of the functions that consume them.
-/

namespace Fyers

/-! ## Market data service: fill-price simulation (marketData.simulateFillPrice) -/

/-- Shallow embedding of `simulateFillPrice` from the market data service.
`ltp` is the result of `getLTP` (null is `none`; the JS guard `if (!ltp)` also
treats a zero price as missing), `bidAsk` the result of `getBidAsk`.
Order types: 1 = limit, 2 = market, 3 = stop, 4 = stop-limit. -/
def simulateFillPrice (ltp : Option ℚ) (bidAsk : Option (ℚ × ℚ)) (side : Int)
    (orderType : Nat) (limitPrice stopPrice : ℚ) (slippageBps : ℚ) : Option ℚ :=
  match ltp with
  | none => none
  | some l =>
    if l = 0 then none
    else
      match bidAsk with
      | none => none
      | some (bid, ask) =>
        let slippage := l * (slippageBps / 10000)
        match orderType with
        | 1 =>
          if side = 1 then some (min limitPrice (ask + slippage))
          else some (max limitPrice (bid - slippage))
        | 2 =>
          if side = 1 then some (ask + slippage)
          else some (bid - slippage)
        | 3 =>
          if side = 1 then (if stopPrice ≤ l then some (ask + slippage) else none)
          else (if l ≤ stopPrice then some (bid - slippage) else none)
        | 4 =>
          if side = 1 then
            (if stopPrice ≤ l then some (min limitPrice (ask + slippage)) else none)
          else
            (if l ≤ stopPrice then some (max limitPrice (bid - slippage)) else none)
        | _ => none

/-- Reference definition written from the specification's words (§4.3 fill-price
simulation contract): market buy → ask + slippage, market sell → bid − slippage;
limit buy → min(limit, ask + slippage), limit sell → max(limit, bid − slippage);
stop buy fills only once LTP ≥ stop price, stop sell only once LTP ≤ stop price;
stop-limit combines the stop gate with the limit rule; missing market data
yields no fill. -/
def simulateFillPriceSpec (ltp : Option ℚ) (bidAsk : Option (ℚ × ℚ)) (side : Int)
    (orderType : Nat) (limitPrice stopPrice : ℚ) (slippageBps : ℚ) : Option ℚ :=
  match ltp, bidAsk with
  | some l, some (bid, ask) =>
    let slippage := l * (slippageBps / 10000)
    if orderType = 2 then
      some (if side = 1 then ask + slippage else bid - slippage)
    else if orderType = 1 then
      some (if side = 1 then min limitPrice (ask + slippage)
            else max limitPrice (bid - slippage))
    else if orderType = 3 then
      if side = 1 then (if stopPrice ≤ l then some (ask + slippage) else none)
      else (if l ≤ stopPrice then some (bid - slippage) else none)
    else if orderType = 4 then
      if side = 1 then (if stopPrice ≤ l then some (min limitPrice (ask + slippage)) else none)
      else (if l ≤ stopPrice then some (max limitPrice (bid - slippage)) else none)
    else none
  | _, _ => none

/-- C5: the implemented fill simulator agrees with the reference case analysis
of the spec on every order of the four kinds (for a genuine side and a
provider-reachable LTP, which `getLTP` never reports as zero), and missing
market data always yields no-fill rather than an error. -/
theorem simulateFillPrice_eq_spec (ltp : Option ℚ) (bidAsk : Option (ℚ × ℚ))
    (side : Int) (orderType : Nat) (limitPrice stopPrice slippageBps : ℚ)
    (hside : side = 1 ∨ side = -1) (hltp : ltp ≠ some 0)
    (hot : orderType = 1 ∨ orderType = 2 ∨ orderType = 3 ∨ orderType = 4) :
    simulateFillPrice ltp bidAsk side orderType limitPrice stopPrice slippageBps =
      simulateFillPriceSpec ltp bidAsk side orderType limitPrice stopPrice slippageBps ∧
    ((ltp = none ∨ bidAsk = none) →
      simulateFillPrice ltp bidAsk side orderType limitPrice stopPrice slippageBps = none) := by
  constructor
  · cases ltp with
    | none => rfl
    | some l =>
      have hl : ¬ l = 0 := by
        intro h; exact hltp (by simp [h])
      cases bidAsk with
      | none => simp [simulateFillPrice, simulateFillPriceSpec, hl]
      | some ba =>
        obtain ⟨bid, ask⟩ := ba
        rcases hot with h | h | h | h <;> subst h <;>
          rcases hside with h | h <;> subst h <;>
            simp [simulateFillPrice, simulateFillPriceSpec, hl]
  · intro hmiss
    rcases hmiss with h | h
    · subst h; rfl
    · subst h
      cases ltp with
      | none => rfl
      | some l => by_cases hl : l = 0 <;> simp [simulateFillPrice, hl]

/-- Witness for C5 at a concrete input: market sell, bid 100, LTP 100, 10 bps
slippage: both the code and the spec case analysis fill at 100 − 0.1 = 99.9. -/
theorem simulateFillPrice_eq_spec_witness :
    simulateFillPrice (some 100) (some (100, 100.2)) (-1) 2 0 0 10 =
      simulateFillPriceSpec (some 100) (some (100, 100.2)) (-1) 2 0 0 10 ∧
    simulateFillPrice (some 100) (some (100, 100.2)) (-1) 2 0 0 10 = some (999/10) := by
  refine ⟨(simulateFillPrice_eq_spec (some 100) (some (100, 100.2)) (-1) 2 0 0 10
    (Or.inr rfl) (by simp) (Or.inr (Or.inl rfl))).1, by norm_num [simulateFillPrice]⟩

/-! ## Webhook service: Chartlink payload normalization (webhookService.js) -/

/-- An incoming Chartlink webhook body.  Every recognized field name appears;
absent JSON fields are `none`.  String-valued fields are strings, quantities
integers, price fields rationals (`parseInt` / `parseFloat` on a JSON number
are the identity maps under this typing).  The JSON field `type` is `otype`
here. -/
structure ChartlinkPayload where
  unique_id : Option String := none
  symbol : Option String := none
  instrument : Option String := none
  ticker : Option String := none
  scrip : Option String := none
  exchange : Option String := none
  exch : Option String := none
  side : Option String := none
  action : Option String := none
  signal : Option String := none
  order_type : Option String := none
  otype : Option String := none
  product_type : Option String := none
  product : Option String := none
  quantity : Option Int := none
  qty : Option Int := none
  volume : Option Int := none
  q : Option Int := none
  limit_price : Option ℚ := none
  price : Option ℚ := none
  ltp : Option ℚ := none
  stop_price : Option ℚ := none
  trigger_price : Option ℚ := none
  trigger : Option ℚ := none
  stop_loss : Option ℚ := none
  sl : Option ℚ := none
  take_profit : Option ℚ := none
  tp : Option ℚ := none
  order_tag : Option String := none
  tag : Option String := none
  validity : Option String := none
  offline_order : Option Bool := none
  disclosed_qty : Option Int := none
  strategy_name : Option String := none
deriving DecidableEq

/-- JavaScript `a || b` on possibly-absent strings: the empty string is falsy. -/
def jsOrS (a b : Option String) : Option String :=
  match a with
  | some s => if s = "" then b else some s
  | none => b

/-- JavaScript `a || b` on possibly-absent numbers: zero is falsy. -/
def jsOrQ (a b : Option ℚ) : Option ℚ :=
  match a with
  | some x => if x = 0 then b else some x
  | none => b

/-- JavaScript `a || b` on possibly-absent integers: zero is falsy. -/
def jsOrI (a b : Option Int) : Option Int :=
  match a with
  | some x => if x = 0 then b else some x
  | none => b

/-- The JS idiom `v ? parseFloat(v) : undefined`: keep the number if truthy. -/
def jsTruthyQ (v : Option ℚ) : Option ℚ :=
  match v with
  | some x => if x = 0 then none else some x
  | none => none

/-- Embedding of `mapSide`: the side synonym table `{BUY,buy,1 ↦ 1, SELL,sell,-1 ↦ -1}`
followed by `|| 1`, so an absent or unrecognized side yields 1 (buy). -/
def mapSide (side : Option String) : Int :=
  match side with
  | some "BUY" => 1
  | some "buy" => 1
  | some "1" => 1
  | some "SELL" => -1
  | some "sell" => -1
  | some "-1" => -1
  | _ => 1

/-- Embedding of `mapOrderType`: order-kind synonym table followed by `|| 2` (market). -/
def mapOrderType (t : Option String) : Nat :=
  match t with
  | some "LIMIT" => 1
  | some "limit" => 1
  | some "1" => 1
  | some "MARKET" => 2
  | some "market" => 2
  | some "2" => 2
  | some "STOP" => 3
  | some "stop" => 3
  | some "3" => 3
  | some "STOP_LIMIT" => 4
  | some "stop_limit" => 4
  | some "4" => 4
  | _ => 2

/-- The regex test `/^[A-Z]+:/`: one or more leading capital letters followed
by a colon. -/
def hasExchangeQualifier (s : String) : Bool :=
  let cs := s.toList
  let run := cs.takeWhile (fun c => 'A' ≤ c && c ≤ 'Z')
  decide (1 ≤ run.length) && ((cs.drop run.length).head? == some ':')

/-- Embedding of `normalizeSymbol`: pass an already exchange-qualified symbol through,
otherwise uppercase/trim it and attach `EXCH:`…`-EQ` with default exchange
NSE. -/
def normalizeSymbol (raw : Option String) (exch : Option String) : Option String :=
  match raw with
  | none => none
  | some r =>
    if r = "" then none
    else if hasExchangeQualifier r then some r
    else
      let upper := r.toUpper.trim
      let ex := (match jsOrS exch (some "NSE") with
                 | some e => e
                 | none => "NSE").toUpper
      some (ex ++ ":" ++ upper ++ "-EQ")

/-- The normalized order intent produced by `mapChartlinkToOrder`. -/
structure OrderIntent where
  symbol : String
  side : Int
  otype : Nat
  productType : String
  qty : Int
  limitPrice : Option ℚ
  stopPrice : Option ℚ
  stopLoss : Option ℚ
  takeProfit : Option ℚ
  orderTag : Option String
  validity : String
  offlineOrder : Bool
  disclosedQty : Int
deriving DecidableEq

/-- Embedding of `mapChartlinkToOrder`: resolve each canonical field through its ordered
synonym list, check the required fields (`!mapping.symbol || !mapping.side ||
!mapping.qty`, where `side` — an integer that is never 0 — and a present
positive `qty` are truthy), and apply the defaults (order type market, product
type INTRADAY). -/
def mapChartlinkToOrder (p : ChartlinkPayload) : Option OrderIntent :=
  let symbol := normalizeSymbol
    (jsOrS (jsOrS (jsOrS p.symbol p.instrument) p.ticker) p.scrip)
    (jsOrS p.exchange p.exch)
  let side := mapSide (jsOrS (jsOrS p.side p.action) p.signal)
  let otype := mapOrderType (jsOrS p.order_type p.otype)
  let productType := (match jsOrS (jsOrS p.product_type p.product) (some "INTRADAY") with
                      | some s => s
                      | none => "INTRADAY")
  let qty := jsOrI (jsOrI (jsOrI p.quantity p.qty) p.volume) p.q
  let limitPrice := jsTruthyQ (jsOrQ (jsOrQ p.limit_price p.price) p.ltp)
  let stopPrice := jsTruthyQ (jsOrQ (jsOrQ p.stop_price p.trigger_price) p.trigger)
  let stopLoss := jsTruthyQ (jsOrQ p.stop_loss p.sl)
  let takeProfit := jsTruthyQ (jsOrQ p.take_profit p.tp)
  let orderTag := jsOrS p.order_tag p.tag
  let validity := (match jsOrS p.validity (some "DAY") with
                   | some s => s
                   | none => "DAY")
  let offlineOrder := (p.offline_order.getD false)
  let disclosedQty := (jsOrI p.disclosed_qty (some 0)).getD 0
  match symbol with
  | none => none
  | some sym =>
    match qty with
    | none => none
    | some nqty =>
      if side = 0 ∨ nqty = 0 then none
      else
        some { symbol := sym
               side := side
               otype := if otype = 0 then 2 else otype
               productType := if productType = "" then "INTRADAY" else productType
               qty := nqty
               limitPrice := limitPrice
               stopPrice := stopPrice
               stopLoss := stopLoss
               takeProfit := takeProfit
               orderTag := orderTag
               validity := validity
               offlineOrder := offlineOrder
               disclosedQty := disclosedQty }

/-- A concrete payload with symbol and quantity but no side field at all. -/
def sidelessPayload : ChartlinkPayload :=
  { symbol := some "NSE:SBIN-EQ", quantity := some 10 }

/-- C8 counterexample: the claim says a payload with no side field fails
normalization; in fact `mapChartlinkToOrder` succeeds on `sidelessPayload`
and defaults the side to 1 (buy), the order type to market and the product
type to INTRADAY. -/
theorem mapChartlinkToOrder_sideless_succeeds :
    mapChartlinkToOrder sidelessPayload =
      some { symbol := "NSE:SBIN-EQ", side := 1, otype := 2,
             productType := "INTRADAY", qty := 10, limitPrice := none,
             stopPrice := none, stopLoss := none, takeProfit := none,
             orderTag := none, validity := "DAY", offlineOrder := false,
             disclosedQty := 0 } := by
  decide

/-- C8 amended: a payload with none of the side synonyms present does not fail
normalization on that account — whenever `mapChartlinkToOrder` succeeds, the
missing side has been defaulted to 1 (buy). -/
theorem mapChartlinkToOrder_missing_side_defaults_buy (p : ChartlinkPayload)
    (m : OrderIntent) (hside : p.side = none) (haction : p.action = none)
    (hsignal : p.signal = none) (h : mapChartlinkToOrder p = some m) :
    m.side = 1 := by
  have hchain : jsOrS (jsOrS (none : Option String) none) none = none := rfl
  cases hsym : normalizeSymbol
      (jsOrS (jsOrS (jsOrS p.symbol p.instrument) p.ticker) p.scrip)
      (jsOrS p.exchange p.exch) with
  | none =>
    simp [mapChartlinkToOrder, hside, haction, hsignal, hchain, hsym] at h
  | some sym =>
    cases hq : jsOrI (jsOrI (jsOrI p.quantity p.qty) p.volume) p.q with
    | none =>
      simp [mapChartlinkToOrder, hside, haction, hsignal, hchain, hsym, hq] at h
    | some nqty =>
      by_cases hz : nqty = 0
      · simp [mapChartlinkToOrder, hside, haction, hsignal, hchain, hsym, hq,
          hz, mapSide] at h
      · simp [mapChartlinkToOrder, hside, haction, hsignal, hchain, hsym, hq,
          hz, mapSide] at h
        subst h
        rfl

/-- Witness for the amended C8 at the concrete sideless payload. -/
theorem mapChartlinkToOrder_missing_side_defaults_buy_witness :
    ({ symbol := "NSE:SBIN-EQ", side := 1, otype := 2,
       productType := "INTRADAY", qty := 10, limitPrice := none,
       stopPrice := none, stopLoss := none, takeProfit := none,
       orderTag := none, validity := "DAY", offlineOrder := false,
       disclosedQty := 0 } : OrderIntent).side = 1 :=
  mapChartlinkToOrder_missing_side_defaults_buy sidelessPayload _
    rfl rfl rfl (by decide)

/-! ## Webhook service: idempotent alert delivery (processChartlinkAlert) -/

/-- A deterministic rendering of the payload standing for `JSON.stringify` of
the request body: a comma-separated list of the fields that are present.  Only
determinism matters downstream, since the SHA-256 function is a parameter. -/
def stringifyPayload (p : ChartlinkPayload) : String :=
  let s := fun (name : String) (v : Option String) =>
    match v with
    | some x => name ++ ":" ++ x ++ ","
    | none => ""
  let i := fun (name : String) (v : Option Int) =>
    match v with
    | some x => name ++ ":" ++ toString x ++ ","
    | none => ""
  let r := fun (name : String) (v : Option ℚ) =>
    match v with
    | some x => name ++ ":" ++ toString x ++ ","
    | none => ""
  s "unique_id" p.unique_id ++ s "symbol" p.symbol ++ s "instrument" p.instrument ++
  s "ticker" p.ticker ++ s "scrip" p.scrip ++ s "exchange" p.exchange ++
  s "exch" p.exch ++ s "side" p.side ++ s "action" p.action ++
  s "signal" p.signal ++ s "order_type" p.order_type ++ s "type" p.otype ++
  s "product_type" p.product_type ++ s "product" p.product ++
  i "quantity" p.quantity ++ i "qty" p.qty ++ i "volume" p.volume ++ i "q" p.q ++
  r "limit_price" p.limit_price ++ r "price" p.price ++ r "ltp" p.ltp ++
  r "stop_price" p.stop_price ++ r "trigger_price" p.trigger_price ++
  r "trigger" p.trigger ++ r "stop_loss" p.stop_loss ++ r "sl" p.sl ++
  r "take_profit" p.take_profit ++ r "tp" p.tp ++ s "order_tag" p.order_tag ++
  s "tag" p.tag ++ s "validity" p.validity ++ i "disclosed_qty" p.disclosed_qty ++
  s "strategy_name" p.strategy_name

/-- Embedding of `generateIdempotencyKey`: prefer the Chartlink `unique_id` (the JS guard
`if (alertData.unique_id)` treats the empty string as absent); otherwise the
first 16 hex characters of the SHA-256 of the serialized payload.  `hash`
stands for node crypto's SHA-256 hex digest. -/
def generateIdempotencyKey (hash : String → String) (p : ChartlinkPayload) : String :=
  let hashed := "chartlink_" ++ (hash (stringifyPayload p)).take 16
  match p.unique_id with
  | some u => if u = "" then hashed else "chartlink_" ++ u
  | none => hashed

/-- One row of the `alerts` table with the fields the webhook path touches.
`idempotencyKey` carries a DB-level unique constraint. -/
structure AlertRec where
  id : Nat
  userId : String
  idempotencyKey : String
  status : String
deriving DecidableEq

/-- The persistent state seen by the webhook handler. -/
structure WebhookDb where
  alerts : List AlertRec
  nextAlertId : Nat
deriving DecidableEq

/-- The JSON acknowledgment of `processChartlinkAlert`. -/
structure WebhookResponse where
  httpStatus : Nat
  alertId : Option Nat
  alertStatus : Option String
deriving DecidableEq

/-- The single-user (token-scoped) path of `processChartlinkAlert`, after body
parsing, the per-IP rate limit and token authentication have succeeded and the
token resolved to `userId`: scope the base idempotency key with the user id,
return the existing alert's id and status on a duplicate, otherwise create the
alert as `pending` and acknowledge with its id. -/
def deliverChartlinkAlert (hash : String → String) (p : ChartlinkPayload)
    (userId : String) (db : WebhookDb) : WebhookResponse × WebhookDb :=
  match db.alerts.find?
      (fun a => a.idempotencyKey == generateIdempotencyKey hash p ++ ":" ++ userId) with
  | some existing =>
    ({ httpStatus := 200, alertId := some existing.id,
       alertStatus := some existing.status }, db)
  | none =>
    ({ httpStatus := 200, alertId := some db.nextAlertId,
       alertStatus := some "pending" },
     { alerts := db.alerts ++
         [{ id := db.nextAlertId, userId := userId,
            idempotencyKey := generateIdempotencyKey hash p ++ ":" ++ userId,
            status := "pending" }],
       nextAlertId := db.nextAlertId + 1 })

/-- C1: delivering the same payload twice sequentially to the same account
creates exactly one alert row: the second call computes the same key, finds
the alert created by the first call, returns its id and current status, and
leaves the database untouched. -/
theorem deliverChartlinkAlert_idempotent (hash : String → String)
    (p : ChartlinkPayload) (userId : String) (db : WebhookDb)
    (h0 : db.alerts.countP
      (fun a => a.idempotencyKey == generateIdempotencyKey hash p ++ ":" ++ userId) = 0) :
    (deliverChartlinkAlert hash p userId db).2.alerts.countP
      (fun a => a.idempotencyKey == generateIdempotencyKey hash p ++ ":" ++ userId) = 1 ∧
    (deliverChartlinkAlert hash p userId
        (deliverChartlinkAlert hash p userId db).2).2 =
      (deliverChartlinkAlert hash p userId db).2 ∧
    (deliverChartlinkAlert hash p userId
        (deliverChartlinkAlert hash p userId db).2).1.alertId =
      (deliverChartlinkAlert hash p userId db).1.alertId ∧
    (deliverChartlinkAlert hash p userId
        (deliverChartlinkAlert hash p userId db).2).1.alertStatus = some "pending" := by
  have hnone : db.alerts.find?
      (fun a => a.idempotencyKey == generateIdempotencyKey hash p ++ ":" ++ userId) = none := by
    rw [List.find?_eq_none]
    intro a ha
    have := List.countP_eq_zero.mp h0 a ha
    simpa using this
  have e1 : deliverChartlinkAlert hash p userId db =
      ({ httpStatus := 200, alertId := some db.nextAlertId, alertStatus := some "pending" },
       { alerts := db.alerts ++
           [{ id := db.nextAlertId, userId := userId,
              idempotencyKey := generateIdempotencyKey hash p ++ ":" ++ userId,
              status := "pending" }],
         nextAlertId := db.nextAlertId + 1 }) := by
    unfold deliverChartlinkAlert
    rw [hnone]
  have happ : (db.alerts ++
      [({ id := db.nextAlertId, userId := userId,
          idempotencyKey := generateIdempotencyKey hash p ++ ":" ++ userId,
          status := "pending" } : AlertRec)]).find?
      (fun a => a.idempotencyKey == generateIdempotencyKey hash p ++ ":" ++ userId) =
      some { id := db.nextAlertId, userId := userId,
             idempotencyKey := generateIdempotencyKey hash p ++ ":" ++ userId,
             status := "pending" } := by
    rw [List.find?_append, hnone]
    simp
  have e2 : deliverChartlinkAlert hash p userId (deliverChartlinkAlert hash p userId db).2 =
      ({ httpStatus := 200, alertId := some db.nextAlertId, alertStatus := some "pending" },
       (deliverChartlinkAlert hash p userId db).2) := by
    rw [e1]
    unfold deliverChartlinkAlert
    dsimp only
    rw [happ]
  refine ⟨?_, ?_, ?_, ?_⟩
  · rw [e1]
    dsimp only
    rw [List.countP_append, h0]
    simp
  · rw [e2]
  · rw [e2, e1]
  · rw [e2]

/-- Witness for C1 at a concrete input: empty database, identity hash,
payload with `unique_id` 42, user `u1`. -/
theorem deliverChartlinkAlert_idempotent_witness :
    (deliverChartlinkAlert id { unique_id := some "42" } "u1"
        ⟨[], 0⟩).2.alerts.countP
      (fun a => a.idempotencyKey ==
        generateIdempotencyKey id { unique_id := some "42" } ++ ":" ++ "u1") = 1 ∧
    (deliverChartlinkAlert id { unique_id := some "42" } "u1"
        (deliverChartlinkAlert id { unique_id := some "42" } "u1" ⟨[], 0⟩).2).2 =
      (deliverChartlinkAlert id { unique_id := some "42" } "u1" ⟨[], 0⟩).2 ∧
    (deliverChartlinkAlert id { unique_id := some "42" } "u1"
        (deliverChartlinkAlert id { unique_id := some "42" } "u1" ⟨[], 0⟩).2).1.alertId =
      (deliverChartlinkAlert id { unique_id := some "42" } "u1" ⟨[], 0⟩).1.alertId ∧
    (deliverChartlinkAlert id { unique_id := some "42" } "u1"
        (deliverChartlinkAlert id { unique_id := some "42" } "u1" ⟨[], 0⟩).2).1.alertStatus =
      some "pending" :=
  deliverChartlinkAlert_idempotent id { unique_id := some "42" } "u1" ⟨[], 0⟩ (by decide)

/-! ## Order validation: risk limits (orderValidation.validateRiskLimits) -/

/-- Validation errors produced by the risk-limit stage. -/
inductive VError where
  | notionalExceeded (notional maxAllowed : ℚ)
  | rateLimitExceeded (current maxAllowed : Nat)
deriving DecidableEq

/-- Is this the per-account order-rate error? -/
def VError.isRateLimit : VError → Bool
  | .rateLimitExceeded _ _ => true
  | _ => false

/-- The mutable `orderCounts` map of the validation service.  The JS map key is
the string `userId + "_" + minute`; it is modelled as the pair so that the
cleanup step can read the minute back without re-parsing the string. -/
structure RiskState where
  orderCounts : List ((String × Nat) × Nat)
deriving DecidableEq

/-- One call into the risk-limit stage: the order payload data it reads, the
calling user and the wall-clock minute (`Math.floor(Date.now() / 60000)`). -/
structure RiskCall where
  limitPrice : Option ℚ
  qty : Int
  userId : String
  nowMinute : Nat
deriving DecidableEq

/-- Embedding of `validateRiskLimits`: check the notional ceiling, initialize the
per-user-per-minute counter slot to 0 if absent, emit a rate-limit error when
the stored count has reached `maxOrdersPerMinute`, and prune entries older
than 5 minutes.  Exactly as in the source, no step ever increments the
counter. -/
def validateRiskLimits (maxNotionalPerOrder : ℚ) (maxOrdersPerMinute : Nat)
    (c : RiskCall) (st : RiskState) : List VError × RiskState :=
  let notional := (c.limitPrice.getD 0) * (c.qty : ℚ)
  let notionalErrors : List VError :=
    if maxNotionalPerOrder < notional then
      [.notionalExceeded notional maxNotionalPerOrder]
    else []
  let key := (c.userId, c.nowMinute)
  let counts1 :=
    if (st.orderCounts.find? (fun kv => kv.1 == key)).isNone then
      st.orderCounts ++ [(key, 0)]
    else st.orderCounts
  let currentCount := ((counts1.find? (fun kv => kv.1 == key)).map (·.2)).getD 0
  let rateErrors : List VError :=
    if maxOrdersPerMinute ≤ currentCount then
      [.rateLimitExceeded currentCount maxOrdersPerMinute]
    else []
  let counts2 := counts1.filter (fun kv => c.nowMinute - kv.1.2 ≤ 5)
  (notionalErrors ++ rateErrors, ⟨counts2⟩)

/-- Run a sequence of validation calls through the shared mutable state,
collecting each call's error list. -/
def runRiskCalls (maxNotionalPerOrder : ℚ) (maxOrdersPerMinute : Nat) :
    List RiskCall → RiskState → List (List VError) × RiskState
  | [], st => ([], st)
  | c :: cs, st =>
    let r := validateRiskLimits maxNotionalPerOrder maxOrdersPerMinute c st
    let rest := runRiskCalls maxNotionalPerOrder maxOrdersPerMinute cs r.2
    (r.1 :: rest.1, rest.2)

/-- Every counter the risk-limit stage ever stores is zero: the count is
initialized to 0 and never incremented afterwards. -/
theorem validateRiskLimits_counts_stay_zero (maxNotionalPerOrder : ℚ)
    (maxOrdersPerMinute : Nat) (c : RiskCall) (st : RiskState)
    (hz : ∀ kv ∈ st.orderCounts, kv.2 = 0) :
    ∀ kv ∈ (validateRiskLimits maxNotionalPerOrder maxOrdersPerMinute c st).2.orderCounts,
      kv.2 = 0 := by
  intro kv hkv
  unfold validateRiskLimits at hkv
  dsimp only at hkv
  have hmem := List.mem_filter.mp hkv
  by_cases hfound : (st.orderCounts.find? (fun kv => kv.1 == (c.userId, c.nowMinute))).isNone
  · rw [if_pos hfound] at hmem
    rcases List.mem_append.mp hmem.1 with h | h
    · exact hz kv h
    · simp at h
      rw [h]
  · rw [if_neg hfound] at hmem
    exact hz kv hmem.1

/-- In a counter map whose stored values are all zero, the looked-up current
count is zero. -/
theorem lookupCount_zero (l : List ((String × Nat) × Nat))
    (p : (String × Nat) × Nat → Bool) (hz : ∀ kv ∈ l, kv.2 = 0) :
    ((l.find? p).map (·.2)).getD 0 = 0 := by
  cases hf : l.find? p with
  | none => simp
  | some kv => simp [hz kv (List.mem_of_find?_eq_some hf)]

/-- Helper for C7: no sequence of calls starting from an all-zero counter
state ever produces a rate-limit error. -/
theorem runRiskCalls_no_rate_error (maxNotionalPerOrder : ℚ)
    (maxOrdersPerMinute : Nat) (hpos : 0 < maxOrdersPerMinute)
    (calls : List RiskCall) (st : RiskState)
    (hz : ∀ kv ∈ st.orderCounts, kv.2 = 0) :
    ∀ errs ∈ (runRiskCalls maxNotionalPerOrder maxOrdersPerMinute calls st).1,
      ∀ e ∈ errs, e.isRateLimit = false := by
  induction calls generalizing st with
  | nil => intro errs herrs; simp [runRiskCalls] at herrs
  | cons c cs ih =>
    intro errs herrs
    have hz1 : ∀ kv ∈ (if (st.orderCounts.find?
          (fun kv => kv.1 == (c.userId, c.nowMinute))).isNone then
            st.orderCounts ++ [((c.userId, c.nowMinute), 0)]
          else st.orderCounts), kv.2 = 0 := by
      intro kv hkv
      by_cases hfound : (st.orderCounts.find?
          (fun kv => kv.1 == (c.userId, c.nowMinute))).isNone
      · rw [if_pos hfound] at hkv
        rcases List.mem_append.mp hkv with h | h
        · exact hz kv h
        · simp at h
          rw [h]
      · rw [if_neg hfound] at hkv
        exact hz kv hkv
    have hcur := lookupCount_zero _ (fun kv => kv.1 == (c.userId, c.nowMinute)) hz1
    have hnle : ¬ (maxOrdersPerMinute ≤
        (((if (st.orderCounts.find?
            (fun kv => kv.1 == (c.userId, c.nowMinute))).isNone then
              st.orderCounts ++ [((c.userId, c.nowMinute), 0)]
            else st.orderCounts).find?
            (fun kv => kv.1 == (c.userId, c.nowMinute))).map (·.2)).getD 0) := by
      rw [hcur]
      omega
    have hfirst : (validateRiskLimits maxNotionalPerOrder maxOrdersPerMinute c st).1 =
        (if maxNotionalPerOrder < (c.limitPrice.getD 0) * (c.qty : ℚ) then
          [VError.notionalExceeded ((c.limitPrice.getD 0) * (c.qty : ℚ)) maxNotionalPerOrder]
        else []) := by
      unfold validateRiskLimits
      dsimp only
      rw [if_neg hnle]
      simp
    rcases List.mem_cons.mp herrs with h | h
    · subst h
      intro e he
      rw [hfirst] at he
      by_cases hn : maxNotionalPerOrder < (c.limitPrice.getD 0) * (c.qty : ℚ)
      · rw [if_pos hn] at he
        simp at he
        rw [he]
        rfl
      · rw [if_neg hn] at he
        simp at he
    · exact ih _ (validateRiskLimits_counts_stay_zero _ _ _ _ hz) errs h

/-- C7 (code evaluation): the per-account order rate limit never fires.
Starting from any state whose counters are all zero (in particular the
initial empty map), no response of any sequence of validation calls carries a
rate-limit error, because the stored count is never incremented and therefore
never reaches a positive `maxOrdersPerMinute`.  This contradicts the claimed
behavior that the call after `maxOrdersPerMinute` validated orders is
rejected. -/
theorem validateRiskLimits_never_rate_limits (maxNotionalPerOrder : ℚ)
    (maxOrdersPerMinute : Nat) (hpos : 0 < maxOrdersPerMinute)
    (calls : List RiskCall) (st : RiskState)
    (hz : ∀ kv ∈ st.orderCounts, kv.2 = 0) :
    (runRiskCalls maxNotionalPerOrder maxOrdersPerMinute calls st).1.all
      (fun errs => errs.all (fun e => !e.isRateLimit)) = true := by
  rw [List.all_eq_true]
  intro errs herrs
  rw [List.all_eq_true]
  intro e he
  have := runRiskCalls_no_rate_error maxNotionalPerOrder maxOrdersPerMinute hpos
    calls st hz errs herrs e he
  simp [this]

/-- Witness for C7's code-evaluation theorem: eleven identical calls for the
same user within the same minute under the default limit of 10 per minute —
none of the eleven responses carries a rate-limit error. -/
theorem validateRiskLimits_never_rate_limits_witness :
    (runRiskCalls 1000000 10
      (List.replicate 11 { limitPrice := some 100, qty := 10, userId := "u1", nowMinute := 0 })
      ⟨[]⟩).1.all (fun errs => errs.all (fun e => !e.isRateLimit)) = true :=
  validateRiskLimits_never_rate_limits 1000000 10 (by decide)
    (List.replicate 11 { limitPrice := some 100, qty := 10, userId := "u1", nowMinute := 0 })
    ⟨[]⟩ (by simp)

/-! ## Paper engine: positions (paperEngine.updatePosition) -/

/-- One row of the `positions` table.  `(userId, symbol, mode)` carries a
DB-level unique constraint, so row lookup, update and deletion by that key
address the single matching row. -/
structure PPosition where
  userId : String
  symbol : String
  qty : Int
  avgPrice : ℚ
  mode : String
deriving DecidableEq

/-- The unique lookup key `userId_symbol_mode` with mode `paper`. -/
def posKey (userId symbol : String) (p : PPosition) : Bool :=
  p.userId == userId && p.symbol == symbol && p.mode == "paper"

/-- Embedding of `updatePosition`: if a row exists, add the signed fill quantity; delete the
row when the new quantity is exactly zero, otherwise store the recomputed
volume-weighted average price.  Without a row, create one only when the signed
quantity is positive. -/
def updatePosition (userId symbol : String) (side qty : Int) (price : ℚ)
    (positions : List PPosition) : List PPosition :=
  match positions.find? (posKey userId symbol) with
  | some existing =>
    if existing.qty + side * qty = 0 then
      positions.eraseP (posKey userId symbol)
    else
      positions.map (fun p =>
        if posKey userId symbol p then
          { p with
            qty := existing.qty + side * qty,
            avgPrice := ((existing.qty : ℚ) * existing.avgPrice +
                ((side * qty : Int) : ℚ) * price) / |((existing.qty + side * qty : Int) : ℚ)| }
        else p)
  | none =>
    if side * qty > 0 then
      positions ++
        [{ userId := userId, symbol := symbol, qty := side * qty,
           avgPrice := price, mode := "paper" }]
    else positions

/-- Lemma: `find?` commutes with a map that rewrites exactly the matching elements,
provided the rewrite preserves matching. -/
theorem find?_map_ite {α : Type} (p : α → Bool) (g : α → α)
    (hg : ∀ x, p x = true → p (g x) = true) (l : List α) :
    (l.map (fun x => if p x then g x else x)).find? p = (l.find? p).map g := by
  induction l with
  | nil => rfl
  | cons a t ih =>
    by_cases ha : p a = true
    · rw [List.map_cons, if_pos ha, List.find?_cons_of_pos _ (hg a ha),
        List.find?_cons_of_pos _ ha]
      rfl
    · rw [List.map_cons, if_neg ha,
        List.find?_cons_of_neg _ (by simpa using ha),
        List.find?_cons_of_neg _ (by simpa using ha), ih]

/-- C9: applying a fill to an existing position whose new signed quantity is
nonzero stores quantity `prevQty + side×qty` and average price
`(prevQty×prevAvg + side×qty×price) / |newQty|`. -/
theorem updatePosition_avg_price (userId symbol : String) (side qty : Int)
    (price : ℚ) (positions : List PPosition) (existing : PPosition)
    (hfind : positions.find? (posKey userId symbol) = some existing)
    (hnz : existing.qty + side * qty ≠ 0) :
    (updatePosition userId symbol side qty price positions).find?
        (posKey userId symbol) =
      some { existing with
             qty := existing.qty + side * qty,
             avgPrice := ((existing.qty : ℚ) * existing.avgPrice +
                 ((side * qty : Int) : ℚ) * price) /
               |((existing.qty + side * qty : Int) : ℚ)| } := by
  have hx : posKey userId symbol existing = true := List.find?_some hfind
  have hpres : ∀ p : PPosition, posKey userId symbol p = true →
      posKey userId symbol
        { p with
          qty := existing.qty + side * qty,
          avgPrice := ((existing.qty : ℚ) * existing.avgPrice +
              ((side * qty : Int) : ℚ) * price) /
            |((existing.qty + side * qty : Int) : ℚ)| } = true := by
    intro p hp
    simpa [posKey] using hp
  have hmap := find?_map_ite (posKey userId symbol)
    (fun p => { p with
      qty := existing.qty + side * qty,
      avgPrice := ((existing.qty : ℚ) * existing.avgPrice +
          ((side * qty : Int) : ℚ) * price) /
        |((existing.qty + side * qty : Int) : ℚ)| }) hpres positions
  simp only [updatePosition, hfind, if_neg hnz]
  rw [hmap, hfind]
  simp [hx]

/-- Witness for C9, the spec's scenario: a long 100 @ 100 position receiving a
same-side fill of 100 @ 110 becomes 200 @ 105. -/
theorem updatePosition_avg_price_witness :
    (updatePosition "u1" "NSE:SBIN-EQ" 1 100 110
        [{ userId := "u1", symbol := "NSE:SBIN-EQ", qty := 100,
           avgPrice := 100, mode := "paper" }]).find?
        (posKey "u1" "NSE:SBIN-EQ") =
      some { userId := "u1", symbol := "NSE:SBIN-EQ", qty := 200,
             avgPrice := 105, mode := "paper" } := by
  have h := updatePosition_avg_price "u1" "NSE:SBIN-EQ" 1 100 110
    [{ userId := "u1", symbol := "NSE:SBIN-EQ", qty := 100,
       avgPrice := 100, mode := "paper" }]
    { userId := "u1", symbol := "NSE:SBIN-EQ", qty := 100,
      avgPrice := 100, mode := "paper" }
    (by rfl) (by decide)
  rw [h]
  norm_num

/-- C10: a sell fill (side −1, positive quantity) landing on an account and
symbol with no position row changes nothing: the short position opened from
flat is silently not tracked, because creation requires `side × qty > 0`. -/
theorem updatePosition_sell_from_flat_untracked (userId symbol : String)
    (qty : Int) (price : ℚ) (positions : List PPosition)
    (hfind : positions.find? (posKey userId symbol) = none) (hq : 0 < qty) :
    updatePosition userId symbol (-1) qty price positions = positions := by
  unfold updatePosition
  rw [hfind, if_neg (by omega)]

/-- Witness for C10: a sell of 100 @ 50 with an empty positions table leaves
the table empty. -/
theorem updatePosition_sell_from_flat_untracked_witness :
    updatePosition "u1" "NSE:SBIN-EQ" (-1) 100 50 [] = [] :=
  updatePosition_sell_from_flat_untracked "u1" "NSE:SBIN-EQ" 100 50 []
    (by rfl) (by decide)

/-! ## Paper engine: position zero-close over fill sequences (C4) -/

/-- One finalized fill feeding `updatePosition`. -/
structure EngineFill where
  side : Int
  qty : Int
  price : ℚ
deriving DecidableEq

/-- The signed sum of a fill sequence. -/
def signedSum (fills : List EngineFill) : Int :=
  (fills.map (fun f => f.side * f.qty)).sum

/-- Apply a sequence of finalized fills for one account and symbol to the
positions table, in order. -/
def applyFills (userId symbol : String) (fills : List EngineFill)
    (positions : List PPosition) : List PPosition :=
  fills.foldl (fun acc f => updatePosition userId symbol f.side f.qty f.price acc)
    positions

/-- A fill sequence never opens from flat on the short side: whenever the
running signed sum is zero, the next fill has positive signed quantity.
(Fills violating this are silently dropped by `updatePosition`, see C10.) -/
def wellOpened : Int → List EngineFill → Bool
  | _, [] => true
  | s, f :: fs =>
    (decide (s ≠ 0) || decide (0 < f.side * f.qty)) && wellOpened (s + f.side * f.qty) fs

/-- C4 counterexample: the fills "sell 100 @ 10, buy 100 @ 10" have signed sum
zero, yet after applying them from an empty table a position row for the key
remains (the opening sell was dropped, the closing buy opened a long). -/
theorem applyFills_zero_sum_row_remains :
    signedSum [⟨-1, 100, 10⟩, ⟨1, 100, 10⟩] = 0 ∧
    (applyFills "u1" "NSE:SBIN-EQ" [⟨-1, 100, 10⟩, ⟨1, 100, 10⟩] []).find?
        (posKey "u1" "NSE:SBIN-EQ") =
      some { userId := "u1", symbol := "NSE:SBIN-EQ", qty := 100,
             avgPrice := 10, mode := "paper" } := by
  constructor
  · decide
  · rfl

/-- Invariant behind the amended C4: starting from a table state that is
either empty (running sum zero) or the single tracked row holding the running
sum, a well-opened fill sequence ends in the empty table exactly when the
total signed sum is zero, and otherwise in the single row holding that sum. -/
theorem applyFills_tracks_sum (userId symbol : String) :
    ∀ (fills : List EngineFill) (s : Int) (positions : List PPosition),
    wellOpened s fills = true →
    ((s = 0 ∧ positions = []) ∨
      (s ≠ 0 ∧ ∃ avg, positions =
        [{ userId := userId, symbol := symbol, qty := s, avgPrice := avg,
           mode := "paper" }])) →
    ((signedSum fills + s = 0 ∧ applyFills userId symbol fills positions = []) ∨
      (signedSum fills + s ≠ 0 ∧ ∃ avg, applyFills userId symbol fills positions =
        [{ userId := userId, symbol := symbol, qty := signedSum fills + s,
           avgPrice := avg, mode := "paper" }])) := by
  intro fills
  induction fills with
  | nil =>
    intro s positions _ hinv
    rcases hinv with ⟨h0, hps⟩ | ⟨hne, avg, hps⟩
    · exact Or.inl ⟨by simp [signedSum, h0], by simp [applyFills, hps]⟩
    · exact Or.inr ⟨by simpa [signedSum] using hne,
        avg, by simp [applyFills, hps, signedSum]⟩
  | cons f fs ih =>
    intro s positions hwo hinv
    rw [wellOpened, Bool.and_eq_true] at hwo
    have hstep : applyFills userId symbol (f :: fs) positions =
        applyFills userId symbol fs
          (updatePosition userId symbol f.side f.qty f.price positions) := rfl
    have hsum : signedSum (f :: fs) + s = signedSum fs + (s + f.side * f.qty) := by
      simp [signedSum]
      ring
    rw [hstep, hsum]
    apply ih (s + f.side * f.qty) _ hwo.2
    rcases hinv with ⟨h0, hps⟩ | ⟨hne, avg, hps⟩
    · have hpos : 0 < f.side * f.qty := by
        rcases Bool.or_eq_true _ _ |>.mp hwo.1 with h | h
        · exact absurd h0 (by simpa using h)
        · simpa using h
      right
      refine ⟨by omega, f.price, ?_⟩
      rw [hps]
      unfold updatePosition
      rw [show ([] : List PPosition).find? (posKey userId symbol) = none from rfl,
        if_pos hpos]
      simp [h0]
    · rw [hps]
      have hfind : ([(⟨userId, symbol, s, avg, "paper"⟩ : PPosition)] :
          List PPosition).find? (posKey userId symbol) =
          some (⟨userId, symbol, s, avg, "paper"⟩ : PPosition) := by
        simp [List.find?, posKey]
      by_cases hz : s + f.side * f.qty = 0
      · left
        refine ⟨by omega, ?_⟩
        unfold updatePosition
        rw [hfind]
        simp only [hz]
        simp [List.eraseP_cons, posKey]
      · right
        refine ⟨by omega,
          ((s : ℚ) * avg + ((f.side * f.qty : Int) : ℚ) * f.price) /
            |((s + f.side * f.qty : Int) : ℚ)|, ?_⟩
        simp only [updatePosition, hfind]
        rw [if_neg (by simpa using hz)]
        simp [posKey]

/-- C4 amended: for fill sequences that never open from flat on the short side
(the condition the counterexample violates; such opening sells are silently
dropped, see C10), the zero-close invariant holds in both directions — after
applying the fills from an empty table there is no position row for the key
if and only if the signed quantities sum to zero. -/
theorem applyFills_zero_close_iff (userId symbol : String)
    (fills : List EngineFill) (hwo : wellOpened 0 fills = true) :
    ((applyFills userId symbol fills []).find? (posKey userId symbol) = none ↔
      signedSum fills = 0) := by
  have h := applyFills_tracks_sum userId symbol fills 0 [] hwo (Or.inl ⟨rfl, rfl⟩)
  rcases h with ⟨hsum, hres⟩ | ⟨hsum, avg, hres⟩
  · rw [hres]
    simp
    omega
  · rw [hres]
    constructor
    · intro hfind
      simp [List.find?, posKey] at hfind
    · intro h0
      omega

/-- Witness for the amended C4: buy 100 @ 10 then sell 100 @ 12 sums to zero
and leaves no position row. -/
theorem applyFills_zero_close_iff_witness :
    (applyFills "u1" "NSE:SBIN-EQ" [⟨1, 100, 10⟩, ⟨-1, 100, 12⟩] []).find?
      (posKey "u1" "NSE:SBIN-EQ") = none :=
  (applyFills_zero_close_iff "u1" "NSE:SBIN-EQ"
    [⟨1, 100, 10⟩, ⟨-1, 100, 12⟩] (by decide)).mpr (by decide)

/-! ## Paper engine: order state machine (paperEngine.js) -/

/-- One row of the `orders` table with the fields the paper engine touches.
`otype` is the numeric order kind (1 limit, 2 market, 3 stop, 4 stop-limit). -/
structure EOrder where
  id : Nat
  userId : String
  mode : String
  side : Int
  otype : Nat
  productType : String
  symbol : String
  qty : Int
  limitPrice : Option ℚ
  stopPrice : Option ℚ
  stopLoss : Option ℚ
  takeProfit : Option ℚ
  orderTag : Option String
  offlineOrder : Bool
  disclosedQty : Int
  validity : String
  state : String
  strategyId : Option String
  alertId : Option String
deriving DecidableEq

/-- One row of the `executions` table. -/
structure EExecution where
  orderId : Nat
  symbol : String
  price : ℚ
  qty : Int
  side : Int
  mode : String
deriving DecidableEq

/-- The persistent state the paper engine reads and writes. -/
structure EngineDb where
  orders : List EOrder
  executions : List EExecution
  positions : List PPosition
  nextOrderId : Nat
deriving DecidableEq

/-- The per-call environment of one processing attempt: the fill price the
market-data simulator returned for this order (`none` = no fill), and the
storage-fault oracle for the fill transaction (`some i` = step `i` of the
transaction throws; steps are 0 execution create, 1 order update, 2 position
update, 3 child-order creation). -/
structure FillEnv where
  fillPrice : Option ℚ
  faultAt : Option Nat
deriving DecidableEq

/-- The lookup `prisma.order.findUnique({ where: { id } })`. -/
def findOrder (oid : Nat) (db : EngineDb) : Option EOrder :=
  db.orders.find? (fun o => o.id == oid)

/-- The state of an order, when it exists. -/
def orderState (oid : Nat) (db : EngineDb) : Option String :=
  (findOrder oid db).map (·.state)

/-- The write `prisma.order.update({ where: { id }, data: { state } })`. -/
def setOrderState (oid : Nat) (st : String) (db : EngineDb) : EngineDb :=
  { db with orders := db.orders.map (fun o =>
      if o.id == oid then { o with state := st } else o) }

/-- The guard `['filled', 'cancelled', 'rejected'].includes(order.state)`. -/
def isTerminalState (s : String) : Bool :=
  s == "filled" || s == "cancelled" || s == "rejected"

/-- Embedding of `rejectOrder`: set the state to rejected (no guard in the source). -/
def rejectOrder (oid : Nat) (db : EngineDb) : EngineDb :=
  setOrderState oid "rejected" db

/-- Embedding of `cancelOrder`: refuse for a missing or non-paper order and for a terminal
state (returns false, no state change); otherwise cancel. -/
def cancelOrder (oid : Nat) (db : EngineDb) : Bool × EngineDb :=
  match findOrder oid db with
  | none => (false, db)
  | some o =>
    if o.mode ≠ "paper" then (false, db)
    else if isTerminalState o.state then (false, db)
    else (true, setOrderState oid "cancelled" db)

/-- Embedding of `handleCOBOOrders`: the child orders spawned inside the fill transaction of
a CO or BO parent, with ids allocated from `nid`.  A CO parent spawns one
opposite-side market stop-loss child; a BO parent additionally spawns an
opposite-side limit take-profit child.  (In JS a null `stopLoss`/`takeProfit`
coerces to 0 in the price arithmetic, hence `getD 0`.) -/
def handleCOBOOrders (parent : EOrder) (fillPrice : ℚ) (nid : Nat) : List EOrder :=
  if parent.productType = "CO" then
    [{ id := nid, userId := parent.userId, mode := "paper",
       side := -parent.side, otype := 2, productType := "INTRADAY",
       symbol := parent.symbol, qty := parent.qty, limitPrice := none,
       stopPrice := some (fillPrice - (parent.side : ℚ) * (parent.stopLoss.getD 0)),
       stopLoss := none, takeProfit := none, orderTag := none,
       offlineOrder := false, disclosedQty := 0, validity := "DAY",
       state := "new", strategyId := parent.strategyId, alertId := parent.alertId }]
  else if parent.productType = "BO" then
    [{ id := nid, userId := parent.userId, mode := "paper",
       side := -parent.side, otype := 2, productType := "INTRADAY",
       symbol := parent.symbol, qty := parent.qty, limitPrice := none,
       stopPrice := some (fillPrice - (parent.side : ℚ) * (parent.stopLoss.getD 0)),
       stopLoss := none, takeProfit := none, orderTag := none,
       offlineOrder := false, disclosedQty := 0, validity := "DAY",
       state := "new", strategyId := parent.strategyId, alertId := parent.alertId },
     { id := nid + 1, userId := parent.userId, mode := "paper",
       side := -parent.side, otype := 1, productType := "INTRADAY",
       symbol := parent.symbol, qty := parent.qty,
       limitPrice := some (fillPrice + (parent.side : ℚ) * (parent.takeProfit.getD 0)),
       stopPrice := none, stopLoss := none, takeProfit := none, orderTag := none,
       offlineOrder := false, disclosedQty := 0, validity := "DAY",
       state := "new", strategyId := parent.strategyId, alertId := parent.alertId }]
  else []

/-- The body of the fill transaction (`prisma.$transaction` in `fillOrder`):
create the execution, mark the order filled, update the position, and spawn
the CO/BO children.  Returns `none` when the fault oracle makes the
transaction throw at a step that runs. -/
def fillOrderTx (faultAt : Option Nat) (oid : Nat) (fillPrice : ℚ) (fillQty : Int)
    (o : EOrder) (db : EngineDb) : Option EngineDb :=
  if faultAt = some 0 then none
  else
    let db1 := { db with executions := db.executions ++
      [{ orderId := oid, symbol := o.symbol, price := fillPrice,
         qty := fillQty, side := o.side, mode := "paper" }] }
    if faultAt = some 1 then none
    else
      let db2 := setOrderState oid "filled" db1
      if faultAt = some 2 then none
      else
        let newPositions :=
          updatePosition o.userId o.symbol o.side fillQty fillPrice db2.positions
        let db3 := { db2 with positions := newPositions }
        if o.productType = "CO" ∨ o.productType = "BO" then
          if faultAt = some 3 then none
          else
            let children := handleCOBOOrders o fillPrice db3.nextOrderId
            some { db3 with orders := db3.orders ++ children, nextOrderId := db3.nextOrderId + children.length }
        else some db3

/-- Embedding of `fillOrder`: silently return for a missing order; otherwise run the
transaction.  On a transaction fault every write rolls back (the database is
unchanged) and the second component reports the propagated exception. -/
def fillOrder (faultAt : Option Nat) (oid : Nat) (fillPrice : ℚ) (fillQty : Int)
    (db : EngineDb) : EngineDb × Bool :=
  match findOrder oid db with
  | none => (db, true)
  | some o =>
    match fillOrderTx faultAt oid fillPrice fillQty o db with
    | some db2 => (db2, true)
    | none => (db, false)

/-- Embedding of `processOrder`: skip missing, non-paper and terminal orders; move a new
order to working; then, with the simulated fill price of the environment,
fill on a positive price (rejecting on a transaction fault, which the
surrounding catch turns into `rejectOrder`), and reject an unfillable market
order. -/
def processOrder (env : FillEnv) (oid : Nat) (db : EngineDb) : EngineDb :=
  match findOrder oid db with
  | none => db
  | some o =>
    if o.mode ≠ "paper" then db
    else if isTerminalState o.state then db
    else
      let db1 := if o.state = "new" then setOrderState oid "working" db else db
      match env.fillPrice with
      | some p =>
        if 0 < p then
          match fillOrder env.faultAt oid p o.qty db1 with
          | (db2, true) => db2
          | (db2, false) => rejectOrder oid db2
        else if o.otype = 2 then rejectOrder oid db1 else db1
      | none => if o.otype = 2 then rejectOrder oid db1 else db1

/-- The order intent accepted by `submitOrder`. -/
structure OrderData where
  side : Int
  otype : Nat
  productType : String
  symbol : String
  qty : Int
  limitPrice : Option ℚ
  stopPrice : Option ℚ
  stopLoss : Option ℚ
  takeProfit : Option ℚ
  orderTag : Option String
  offlineOrder : Bool
  disclosedQty : Int
  validity : String
  strategyId : Option String
  alertId : Option String
deriving DecidableEq

/-- Embedding of `submitOrder`: create the order in state new and process a market order
immediately. -/
def submitOrder (env : FillEnv) (d : OrderData) (userId : String)
    (db : EngineDb) : EngineDb :=
  let db1 := { db with
    orders := db.orders ++
      [{ id := db.nextOrderId, userId := userId, mode := "paper",
         side := d.side, otype := d.otype, productType := d.productType,
         symbol := d.symbol, qty := d.qty, limitPrice := d.limitPrice,
         stopPrice := d.stopPrice, stopLoss := d.stopLoss,
         takeProfit := d.takeProfit, orderTag := d.orderTag,
         offlineOrder := d.offlineOrder, disclosedQty := d.disclosedQty,
         validity := d.validity, state := "new",
         strategyId := d.strategyId, alertId := d.alertId }],
    nextOrderId := db.nextOrderId + 1 }
  if d.otype = 2 then processOrder env db.nextOrderId db1 else db1

/-- Embedding of `processOrders`: one background cycle — process every paper order in state
new or working, oldest first, each with its own market-data result. -/
def processOrders (envs : Nat → FillEnv) (db : EngineDb) : EngineDb :=
  ((db.orders.filter (fun o =>
      o.mode == "paper" && (o.state == "new" || o.state == "working"))).map
    (·.id)).foldl (fun d oid => processOrder (envs oid) oid d) db

/-- The operations the engine exposes; `fillOrder` and `rejectOrder` are
internal and only run where the code above calls them. -/
inductive EngineOp where
  | submit (env : FillEnv) (d : OrderData) (userId : String)
  | process (env : FillEnv) (oid : Nat)
  | cancel (oid : Nat)
  | cycle (envs : Nat → FillEnv)

/-- Run one engine operation. -/
def runOp (db : EngineDb) : EngineOp → EngineDb
  | .submit env d userId => submitOrder env d userId db
  | .process env oid => processOrder env oid db
  | .cancel oid => (cancelOrder oid db).2
  | .cycle envs => processOrders envs db

/-- Run a sequence of engine operations. -/
def runOps (ops : List EngineOp) (db : EngineDb) : EngineDb :=
  ops.foldl runOp db

/-! ### Helper lemmas about order lookup under engine writes -/

/-- Lemma: `find?` commutes with a map that never changes whether an element
matches. -/
theorem find?_map_pres {α : Type} (q : α → Bool) (f : α → α)
    (hf : ∀ x, q (f x) = q x) (l : List α) :
    (l.map f).find? q = (l.find? q).map f := by
  induction l with
  | nil => rfl
  | cons a t ih =>
    by_cases ha : q a = true
    · rw [List.map_cons, List.find?_cons_of_pos _ (by rw [hf]; exact ha),
        List.find?_cons_of_pos _ ha]
      rfl
    · rw [List.map_cons, List.find?_cons_of_neg _ (by rw [hf]; simpa using ha),
        List.find?_cons_of_neg _ (by simpa using ha), ih]

/-- A `find?` hit in the left part survives an append. -/
theorem find?_append_some {α : Type} (q : α → Bool) {l₁ : List α} {x : α}
    (l₂ : List α) (h : l₁.find? q = some x) : (l₁ ++ l₂).find? q = some x := by
  rw [List.find?_append, h]
  rfl

/-- The state-update map function used by `setOrderState` never changes an
order's id, hence never changes whether it matches an id lookup. -/
theorem stateMap_pres_id (oid' : Nat) (st : String) (oid : Nat) :
    ∀ o : EOrder,
      (((if o.id == oid' then { o with state := st } else o) : EOrder).id == oid) =
        (o.id == oid) := by
  intro o
  by_cases h : o.id == oid'
  · rw [if_pos h]
  · rw [if_neg h]

/-- Updating the state of a *different* order leaves an id lookup unchanged. -/
theorem findOrder_setOrderState_other {oid oid' : Nat} (st : String)
    {db : EngineDb} {x : EOrder} (hne : oid ≠ oid')
    (hx : findOrder oid db = some x) :
    findOrder oid (setOrderState oid' st db) = some x := by
  unfold findOrder at hx
  unfold findOrder setOrderState
  dsimp only
  rw [find?_map_pres _ _ (stateMap_pres_id oid' st oid), hx]
  have hid := List.find?_some hx
  simp only [beq_iff_eq] at hid
  have hid' : (x.id == oid') = false := by
    simp only [beq_eq_false_iff_ne, ne_eq]
    omega
  have hres : (if (x.id == oid') = true then ({ x with state := st } : EOrder) else x) = x := by
    rw [hid']
    simp
  simp only [Option.map_some']
  rw [hres]

/-- Updating the state of *this* order makes the lookup return it with the new
state. -/
theorem findOrder_setOrderState_self {oid : Nat} (st : String)
    {db : EngineDb} {x : EOrder} (hx : findOrder oid db = some x) :
    findOrder oid (setOrderState oid st db) = some { x with state := st } := by
  unfold findOrder at hx
  unfold findOrder setOrderState
  dsimp only
  rw [find?_map_pres _ _ (stateMap_pres_id oid st oid), hx]
  have hid := List.find?_some hx
  simp only [beq_iff_eq] at hid
  simp [hid]

/-- Appending rows never changes an id lookup that already hits. -/
theorem findOrder_append {oid : Nat} {db : EngineDb} {x : EOrder}
    (l : List EOrder) (n : Nat) (hx : findOrder oid db = some x) :
    (({ orders := db.orders ++ l, executions := db.executions,
        positions := db.positions, nextOrderId := n } : EngineDb).orders.find?
      (fun o => o.id == oid)) = some x :=
  find?_append_some _ l hx

/-- The fill transaction never touches any *other* order row. -/
theorem fillOrderTx_findOrder_other {faultAt : Option Nat} {oid' : Nat}
    {p : ℚ} {fq : Int} {o : EOrder} {db db2 : EngineDb} {oid : Nat} {x : EOrder}
    (hne : oid ≠ oid') (hx : findOrder oid db = some x)
    (htx : fillOrderTx faultAt oid' p fq o db = some db2) :
    findOrder oid db2 = some x := by
  have hx1 : findOrder oid { db with executions := db.executions ++ [(⟨oid', o.symbol, p, fq, o.side, "paper"⟩ : EExecution)] } = some x := hx
  have hx2 := findOrder_setOrderState_other "filled" hne hx1
  unfold fillOrderTx at htx
  by_cases h0 : faultAt = some 0
  · rw [if_pos h0] at htx
    exact absurd htx (by simp)
  · rw [if_neg h0] at htx
    by_cases h1 : faultAt = some 1
    · rw [if_pos h1] at htx
      exact absurd htx (by simp)
    · rw [if_neg h1] at htx
      by_cases h2 : faultAt = some 2
      · rw [if_pos h2] at htx
        exact absurd htx (by simp)
      · rw [if_neg h2] at htx
        by_cases hco : o.productType = "CO" ∨ o.productType = "BO"
        · rw [if_pos hco] at htx
          by_cases h3 : faultAt = some 3
          · rw [if_pos h3] at htx
            exact absurd htx (by simp)
          · rw [if_neg h3] at htx
            injection htx with htx'
            rw [← htx']
            exact find?_append_some _ _ hx2
        · rw [if_neg hco] at htx
          injection htx with htx'
          rw [← htx']
          exact hx2

/-- Lemma: `fillOrder` never touches any *other* order row. -/
theorem fillOrder_findOrder_other (faultAt : Option Nat) {oid' : Nat} (p : ℚ)
    (fq : Int) {db : EngineDb} {oid : Nat} {x : EOrder} (hne : oid ≠ oid')
    (hx : findOrder oid db = some x) :
    findOrder oid (fillOrder faultAt oid' p fq db).1 = some x := by
  cases hf : findOrder oid' db with
  | none =>
    simp only [fillOrder, hf]
    exact hx
  | some o =>
    cases htx : fillOrderTx faultAt oid' p fq o db with
    | none =>
      simp only [fillOrder, hf, htx]
      exact hx
    | some db2 =>
      simp only [fillOrder, hf, htx]
      exact fillOrderTx_findOrder_other hne hx htx

/-! ### C6: bracket and cover child orders -/

/-- C6: a Bracket order filled (fault-free) at `price` appends exactly two
child orders to the table — an opposite-side market stop-loss child with
`stopPrice = price − side × stopLoss` and an opposite-side limit take-profit
child with `limitPrice = price + side × takeProfit`, both with the parent's
quantity, product type INTRADAY and state new; a Cover order filled at
`price` appends exactly the single stop-loss child. -/
theorem fillOrder_cobo_children (db : EngineDb) (oid : Nat) (o : EOrder)
    (price sl tpv : ℚ) (hfind : findOrder oid db = some o)
    (hsl : o.stopLoss = some sl) (htp : o.takeProfit = some tpv) :
    (o.productType = "BO" →
      (fillOrder none oid price o.qty db).1.orders =
        (setOrderState oid "filled" db).orders ++
        [{ id := db.nextOrderId, userId := o.userId, mode := "paper",
           side := -o.side, otype := 2, productType := "INTRADAY",
           symbol := o.symbol, qty := o.qty, limitPrice := none,
           stopPrice := some (price - (o.side : ℚ) * sl),
           stopLoss := none, takeProfit := none, orderTag := none,
           offlineOrder := false, disclosedQty := 0, validity := "DAY",
           state := "new", strategyId := o.strategyId, alertId := o.alertId },
         { id := db.nextOrderId + 1, userId := o.userId, mode := "paper",
           side := -o.side, otype := 1, productType := "INTRADAY",
           symbol := o.symbol, qty := o.qty,
           limitPrice := some (price + (o.side : ℚ) * tpv),
           stopPrice := none, stopLoss := none, takeProfit := none,
           orderTag := none, offlineOrder := false, disclosedQty := 0,
           validity := "DAY", state := "new", strategyId := o.strategyId,
           alertId := o.alertId }]) ∧
    (o.productType = "CO" →
      (fillOrder none oid price o.qty db).1.orders =
        (setOrderState oid "filled" db).orders ++
        [{ id := db.nextOrderId, userId := o.userId, mode := "paper",
           side := -o.side, otype := 2, productType := "INTRADAY",
           symbol := o.symbol, qty := o.qty, limitPrice := none,
           stopPrice := some (price - (o.side : ℚ) * sl),
           stopLoss := none, takeProfit := none, orderTag := none,
           offlineOrder := false, disclosedQty := 0, validity := "DAY",
           state := "new", strategyId := o.strategyId, alertId := o.alertId }]) := by
  constructor
  · intro hbo
    simp only [fillOrder, hfind, fillOrderTx, handleCOBOOrders, hbo, hsl, htp,
      setOrderState]
    simp
  · intro hco
    simp only [fillOrder, hfind, fillOrderTx, handleCOBOOrders, hco, hsl,
      setOrderState]
    simp

/-- The cover-order parent of the spec's scenario: buy CO, stop-loss 5. -/
def coParent : EOrder :=
  { id := 0, userId := "u1", mode := "paper", side := 1, otype := 2,
    productType := "CO", symbol := "NSE:SBIN-EQ", qty := 10,
    limitPrice := none, stopPrice := none, stopLoss := some 5,
    takeProfit := some 7, orderTag := none, offlineOrder := false,
    disclosedQty := 0, validity := "DAY", state := "working",
    strategyId := none, alertId := none }

/-- The database holding only the cover-order parent. -/
def coDb : EngineDb :=
  { orders := [coParent], executions := [], positions := [], nextOrderId := 1 }

/-- Witness for C6, the spec's scenario: the buy Cover order with stop-loss 5
filled at 100 spawns exactly one sell market child with `stopPrice = 95`,
product type INTRADAY, state new. -/
theorem fillOrder_cobo_children_witness :
    (fillOrder none 0 100 coParent.qty coDb).1.orders =
      [{ coParent with state := "filled" },
       { id := 1, userId := "u1", mode := "paper", side := -1, otype := 2,
         productType := "INTRADAY", symbol := "NSE:SBIN-EQ", qty := 10,
         limitPrice := none, stopPrice := some 95, stopLoss := none,
         takeProfit := none, orderTag := none, offlineOrder := false,
         disclosedQty := 0, validity := "DAY", state := "new",
         strategyId := none, alertId := none }] := by
  have h := (fillOrder_cobo_children coDb 0 coParent 100 5 7 rfl rfl rfl).2 rfl
  rw [h]
  norm_num [setOrderState, coDb, coParent]

/-! ### C2: fill-transaction faults -/

/-- A transaction fault at any step that executes aborts the whole
transaction: steps 0-2 (execution create, order update, position update)
always run, and step 3 (child-order creation) runs exactly for CO/BO
parents. -/
theorem fillOrderTx_fault {i : Nat} (oid : Nat) (p : ℚ) (fq : Int)
    (o : EOrder) (db : EngineDb)
    (hi : i ≤ 2 ∨ (i = 3 ∧ (o.productType = "CO" ∨ o.productType = "BO"))) :
    fillOrderTx (some i) oid p fq o db = none := by
  rcases hi with hi | ⟨hi, hco⟩
  · interval_cases i <;> simp [fillOrderTx]
  · subst hi
    rcases hco with hco | hco <;> simp [fillOrderTx, hco]

/-- A market order awaiting fill, used as the concrete C2 scenario. -/
def c2Order : EOrder :=
  { id := 0, userId := "u1", mode := "paper", side := 1, otype := 2,
    productType := "INTRADAY", symbol := "NSE:SBIN-EQ", qty := 10,
    limitPrice := none, stopPrice := none, stopLoss := none,
    takeProfit := none, orderTag := none, offlineOrder := false,
    disclosedQty := 0, validity := "DAY", state := "working",
    strategyId := none, alertId := none }

/-- The database holding only that working market order. -/
def c2Db : EngineDb :=
  { orders := [c2Order], executions := [], positions := [], nextOrderId := 1 }

/-- C2 counterexample: one working market order, the market quotes a fill at
100, and the fill transaction faults at its first step.  The claim says the
order remains in its pre-fill state (`working`); in fact `processOrder`'s
error handler rejects it — a terminal state — so it is not retried. -/
theorem processOrder_fault_rejects_counterexample :
    orderState 0 c2Db = some "working" ∧
    orderState 0 (processOrder ⟨some 100, some 0⟩ 0 c2Db) = some "rejected" := by
  constructor
  · rfl
  · rfl

/-- C2 amended: when the fill transaction faults at any of its steps that
executes — execution create, order update, position update, or, for a CO/BO
parent, child-order creation — every transactional write rolls back: the
executions and positions tables and the number of order rows are unchanged.
But the order does not stay in its pre-fill state: the surrounding catch
handler marks it `rejected`, a terminal state, so it is not retried on the
next cycle. -/
theorem processOrder_fault_rolls_back_then_rejects (env : FillEnv)
    (db : EngineDb) (oid : Nat) (o : EOrder) (p : ℚ) (i : Nat)
    (hfind : findOrder oid db = some o) (hmode : o.mode = "paper")
    (hstate : o.state = "new" ∨ o.state = "working")
    (hfp : env.fillPrice = some p) (hp : 0 < p)
    (hfa : env.faultAt = some i)
    (hi : i ≤ 2 ∨ (i = 3 ∧ (o.productType = "CO" ∨ o.productType = "BO"))) :
    (processOrder env oid db).executions = db.executions ∧
    (processOrder env oid db).positions = db.positions ∧
    (processOrder env oid db).orders.length = db.orders.length ∧
    orderState oid (processOrder env oid db) = some "rejected" := by
  have hmode' : ¬ (o.mode ≠ "paper") := by simp [hmode]
  have hterm' : ¬ (isTerminalState o.state = true) := by
    rcases hstate with h | h <;> simp [h, isTerminalState]
  obtain ⟨db1, x1, heq, hex, hpos, hlen, hx1⟩ :
      ∃ db1 x1, processOrder env oid db = rejectOrder oid db1 ∧
        db1.executions = db.executions ∧ db1.positions = db.positions ∧
        db1.orders.length = db.orders.length ∧ findOrder oid db1 = some x1 := by
    by_cases hnew : o.state = "new"
    · refine ⟨setOrderState oid "working" db, { o with state := "working" },
        ?_, rfl, rfl, by simp [setOrderState], findOrder_setOrderState_self _ hfind⟩
      have htx : fillOrderTx (some i) oid p o.qty
          ({ o with state := "working" }) (setOrderState oid "working" db) = none :=
        fillOrderTx_fault _ _ _ _ _ hi
      have hfo : fillOrder env.faultAt oid p o.qty (setOrderState oid "working" db) =
          (setOrderState oid "working" db, false) := by
        rw [hfa]
        simp only [fillOrder, findOrder_setOrderState_self "working" hfind, htx]
      simp only [processOrder, hfind, if_neg hmode', if_neg hterm', if_pos hnew,
        hfp, if_pos hp, hfo]
    · refine ⟨db, o, ?_, rfl, rfl, rfl, hfind⟩
      have htx : fillOrderTx (some i) oid p o.qty o db = none :=
        fillOrderTx_fault _ _ _ _ _ hi
      have hfo : fillOrder env.faultAt oid p o.qty db = (db, false) := by
        rw [hfa]
        simp only [fillOrder, hfind, htx]
      simp only [processOrder, hfind, if_neg hmode', if_neg hterm', if_neg hnew,
        hfp, if_pos hp, hfo]
  refine ⟨?_, ?_, ?_, ?_⟩
  · rw [heq]
    exact hex
  · rw [heq]
    exact hpos
  · rw [heq]
    simp only [rejectOrder, setOrderState, List.length_map]
    exact hlen
  · rw [heq]
    have h2 := findOrder_setOrderState_self "rejected" hx1
    simp [orderState, rejectOrder, h2]

/-- A working Cover order, for the C2 witness: its fill transaction also runs
the child-order-creation step. -/
def c2CoOrder : EOrder :=
  { id := 0, userId := "u1", mode := "paper", side := 1, otype := 2,
    productType := "CO", symbol := "NSE:SBIN-EQ", qty := 10,
    limitPrice := none, stopPrice := none, stopLoss := some 5,
    takeProfit := none, orderTag := none, offlineOrder := false,
    disclosedQty := 0, validity := "DAY", state := "working",
    strategyId := none, alertId := none }

/-- The database holding only that working Cover order. -/
def c2CoDb : EngineDb :=
  { orders := [c2CoOrder], executions := [], positions := [], nextOrderId := 1 }

/-- Witness for the amended C2: a working Cover order whose fill transaction
faults at the child-order-creation step (step 3) rolls back completely and
ends rejected. -/
theorem processOrder_fault_rolls_back_then_rejects_witness :
    (processOrder ⟨some 100, some 3⟩ 0 c2CoDb).executions = c2CoDb.executions ∧
    (processOrder ⟨some 100, some 3⟩ 0 c2CoDb).positions = c2CoDb.positions ∧
    (processOrder ⟨some 100, some 3⟩ 0 c2CoDb).orders.length = c2CoDb.orders.length ∧
    orderState 0 (processOrder ⟨some 100, some 3⟩ 0 c2CoDb) = some "rejected" :=
  processOrder_fault_rolls_back_then_rejects ⟨some 100, some 3⟩ c2CoDb 0 c2CoOrder
    100 3 rfl rfl (Or.inr rfl) rfl (by decide) rfl (Or.inr ⟨rfl, Or.inl rfl⟩)

/-! ### C3: terminal states are absorbing -/

/-- Lemma: `processOrder` never changes the row of an order that is already in a
terminal state (for the processed order itself the terminal guard fires; any
other order's row is simply never written). -/
theorem processOrder_preserves_terminal {env : FillEnv} {oid' : Nat}
    {db : EngineDb} {oid : Nat} {x : EOrder}
    (hterm : isTerminalState x.state = true) (hx : findOrder oid db = some x) :
    findOrder oid (processOrder env oid' db) = some x := by
  cases hf : findOrder oid' db with
  | none =>
    simp only [processOrder, hf]
    exact hx
  | some o =>
    by_cases hm : o.mode ≠ "paper"
    · simp only [processOrder, hf, if_pos hm]
      exact hx
    · by_cases ht : isTerminalState o.state = true
      · simp only [processOrder, hf, if_neg hm, if_pos ht]
        exact hx
      · have hne : oid ≠ oid' := by
          intro hcontra
          rw [hcontra, hf] at hx
          injection hx with hx'
          rw [hx'] at ht
          exact ht hterm
        have hx1 : findOrder oid
            (if o.state = "new" then setOrderState oid' "working" db else db) =
            some x := by
          by_cases hnew : o.state = "new"
          · rw [if_pos hnew]
            exact findOrder_setOrderState_other _ hne hx
          · rw [if_neg hnew]
            exact hx
        cases hfp : env.fillPrice with
        | none =>
          simp only [processOrder, hf, if_neg hm, if_neg ht, hfp]
          by_cases hot : o.otype = 2
          · simp only [if_pos hot]
            exact findOrder_setOrderState_other _ hne hx1
          · simp only [if_neg hot]
            exact hx1
        | some p =>
          simp only [processOrder, hf, if_neg hm, if_neg ht, hfp]
          by_cases hp : 0 < p
          · simp only [if_pos hp]
            cases hfo : fillOrder env.faultAt oid' p o.qty
                (if o.state = "new" then setOrderState oid' "working" db else db) with
            | mk db2 b =>
              have h2 : findOrder oid db2 = some x := by
                have h3 := fillOrder_findOrder_other env.faultAt p o.qty hne hx1
                rw [hfo] at h3
                exact h3
              cases b
              · simp only [hfo]
                exact findOrder_setOrderState_other _ hne h2
              · simp only [hfo]
                exact h2
          · simp only [if_neg hp]
            by_cases hot : o.otype = 2
            · simp only [if_pos hot]
              exact findOrder_setOrderState_other _ hne hx1
            · simp only [if_neg hot]
              exact hx1

/-- Lemma: `cancelOrder` never changes the row of an order already in a terminal
state: cancelling it is refused, and cancelling another order writes only
that other row. -/
theorem cancelOrder_preserves_terminal {oid' : Nat} {db : EngineDb}
    {oid : Nat} {x : EOrder} (hterm : isTerminalState x.state = true)
    (hx : findOrder oid db = some x) :
    findOrder oid (cancelOrder oid' db).2 = some x := by
  cases hf : findOrder oid' db with
  | none =>
    simp only [cancelOrder, hf]
    exact hx
  | some o =>
    by_cases hm : o.mode ≠ "paper"
    · simp only [cancelOrder, hf, if_pos hm]
      exact hx
    · by_cases ht : isTerminalState o.state = true
      · simp only [cancelOrder, hf, if_neg hm, if_pos ht]
        exact hx
      · have hne : oid ≠ oid' := by
          intro hcontra
          rw [hcontra, hf] at hx
          injection hx with hx'
          rw [hx'] at ht
          exact ht hterm
        simp only [cancelOrder, hf, if_neg hm, if_neg ht]
        exact findOrder_setOrderState_other _ hne hx

/-- Lemma: `submitOrder` appends a fresh row and possibly processes it; an existing
terminal order's row survives both. -/
theorem submitOrder_preserves_terminal {env : FillEnv} {d : OrderData}
    {userId : String} {db : EngineDb} {oid : Nat} {x : EOrder}
    (hterm : isTerminalState x.state = true) (hx : findOrder oid db = some x) :
    findOrder oid (submitOrder env d userId db) = some x := by
  have hx1 : findOrder oid { db with
      orders := db.orders ++ [(⟨db.nextOrderId, userId, "paper", d.side, d.otype, d.productType, d.symbol, d.qty, d.limitPrice, d.stopPrice, d.stopLoss, d.takeProfit, d.orderTag, d.offlineOrder, d.disclosedQty, d.validity, "new", d.strategyId, d.alertId⟩ : EOrder)],
      nextOrderId := db.nextOrderId + 1 } = some x :=
    find?_append_some _ _ hx
  by_cases hot : d.otype = 2
  · simp only [submitOrder, if_pos hot]
    exact processOrder_preserves_terminal hterm hx1
  · simp only [submitOrder, if_neg hot]
    exact hx1

/-- One background cycle (`processOrders`) never changes a terminal order's
row. -/
theorem processOrders_preserves_terminal {envs : Nat → FillEnv}
    {db : EngineDb} {oid : Nat} {x : EOrder}
    (hterm : isTerminalState x.state = true) (hx : findOrder oid db = some x) :
    findOrder oid (processOrders envs db) = some x := by
  unfold processOrders
  generalize ((db.orders.filter (fun o =>
      o.mode == "paper" && (o.state == "new" || o.state == "working"))).map (·.id)) = ids
  induction ids generalizing db with
  | nil => exact hx
  | cons i t ih =>
    exact ih (processOrder_preserves_terminal hterm hx)

/-- Any single engine operation preserves a terminal order's row. -/
theorem runOp_preserves_terminal {db : EngineDb} {op : EngineOp} {oid : Nat}
    {x : EOrder} (hterm : isTerminalState x.state = true)
    (hx : findOrder oid db = some x) :
    findOrder oid (runOp db op) = some x := by
  cases op with
  | submit env d userId => exact submitOrder_preserves_terminal hterm hx
  | process env oid' => exact processOrder_preserves_terminal hterm hx
  | cancel oid' => exact cancelOrder_preserves_terminal hterm hx
  | cycle envs => exact processOrders_preserves_terminal hterm hx

/-- Any sequence of engine operations preserves a terminal order's row. -/
theorem runOps_preserves_terminal {ops : List EngineOp} {db : EngineDb}
    {oid : Nat} {x : EOrder} (hterm : isTerminalState x.state = true)
    (hx : findOrder oid db = some x) :
    findOrder oid (runOps ops db) = some x := by
  induction ops generalizing db with
  | nil => exact hx
  | cons op t ih => exact ih (runOp_preserves_terminal hterm hx)

/-- C3: the terminal states filled, cancelled and rejected are absorbing — an
order in one of them keeps exactly that state under every sequence of engine
operations (submissions, per-order processing attempts with any market data
and fault behavior, cancellations, and whole background cycles). -/
theorem terminal_states_absorbing (ops : List EngineOp) (db : EngineDb)
    (oid : Nat) (s : String)
    (hterm : s = "filled" ∨ s = "cancelled" ∨ s = "rejected")
    (h : orderState oid db = some s) :
    orderState oid (runOps ops db) = some s := by
  cases hx : findOrder oid db with
  | none =>
    rw [orderState, hx] at h
    simp at h
  | some x =>
    have hxs : x.state = s := by
      rw [orderState, hx] at h
      simpa using h
    have hT : isTerminalState x.state = true := by
      rw [hxs]
      rcases hterm with h' | h' | h' <;> simp [h', isTerminalState]
    rw [orderState, runOps_preserves_terminal hT hx]
    simp [hxs]

/-- A filled order, for the C3 witness. -/
def c3Order : EOrder :=
  { id := 0, userId := "u1", mode := "paper", side := 1, otype := 2,
    productType := "INTRADAY", symbol := "NSE:SBIN-EQ", qty := 10,
    limitPrice := none, stopPrice := none, stopLoss := none,
    takeProfit := none, orderTag := none, offlineOrder := false,
    disclosedQty := 0, validity := "DAY", state := "filled",
    strategyId := none, alertId := none }

/-- A database with one filled order, for the C3 witness. -/
def c3Db : EngineDb :=
  { orders := [c3Order], executions := [], positions := [], nextOrderId := 1 }

/-- Witness for C3: a filled order stays filled across a cancellation
attempt, a processing attempt with a quoted fill price, and a background
cycle. -/
theorem terminal_states_absorbing_witness :
    orderState 0 (runOps
      [EngineOp.cancel 0, EngineOp.process ⟨some 100, none⟩ 0,
       EngineOp.cycle (fun _ => ⟨some 100, none⟩)] c3Db) = some "filled" :=
  terminal_states_absorbing _ c3Db 0 "filled" (Or.inl rfl) (by decide)

end Fyers
